import Mathlib

/-!
Verification of the glyph/icon atlas packer and cache of `src/text.rs`.

The Rust module is shallowly embedded: machine integers (`i32`, `i16`) are
modelled as `Int` (all values exercised by the properties below stay far
from the 32-bit range, so two's-complement wraparound never matters, except
for the `as i16` casts which are modelled explicitly), pixel bytes as `Nat`,
the `f32` UV coordinates as `ℚ` (every UV value is an integer in
`[0, 2048]` divided by `1024 = 2^10`, which `f32` represents exactly), the
`HashMap` cache as an association list, and the two opaque collaborators
(the FreeType rasterizer and the OpenGL backend) as, respectively, a record
of pure functions and a monotone counter supplying fresh texture names
(`gl::GenTextures` never returns a name that is still alive).
-/

set_option autoImplicit false

namespace Epitaph

/-- Width and height of the glyph atlas texture (`ATLAS_SIZE` in `text.rs`). -/
def ATLAS_SIZE : Int := 1024

/-- The `as i16` cast of Rust applied to an `i32` value: keep the low 16 bits,
reinterpreted as a signed 16-bit integer. -/
def asI16 (x : Int) : Int :=
  (x + 32768) % 65536 - 32768

/-- Pixel buffer of a rasterized glyph (`crossfont::BitmapBuffer`): either a
3-channel RGB buffer or a 4-channel RGBA buffer. -/
inductive BitmapBuffer where
  | rgb (buffer : List Nat)
  | rgba (buffer : List Nat)
deriving DecidableEq

/-- Key identifying a glyph in the font service (`crossfont::GlyphKey`). -/
structure GlyphKey where
  font_key : Nat
  size : Int
  character : Char
deriving DecidableEq

/-- A glyph produced by the font service (`crossfont::RasterizedGlyph`). -/
structure RasterizedGlyph where
  character : Char
  width : Int
  height : Int
  top : Int
  left : Int
  advance : Int × Int
  buffer : BitmapBuffer
deriving DecidableEq

/-- Rust's `rgb_to_rgba`: expand a 3-channel byte buffer to 4 channels.
The Rust code allocates `vec![255; pixel_count * 4]` with
`pixel_count = len / 3` and copies each exact 3-byte chunk into the first
three bytes of the corresponding 4-byte chunk, leaving the fourth at `255`;
a trailing partial chunk of the input (impossible when `len % 3 = 0`) is
ignored by `chunks_exact`. -/
def rgb_to_rgba : List Nat → List Nat
  | r :: g :: b :: rest => r :: g :: b :: 255 :: rgb_to_rgba rest
  | _ => []

/-- Element stored in the texture atlas (`AtlasEntry` in `text.rs`). -/
structure AtlasEntry where
  buffer : List Nat
  width : Int
  height : Int
  top : Int
  left : Int
  advance : Int × Int
  multicolor : Bool
deriving DecidableEq

/-- The `impl From<&RasterizedGlyph> for AtlasEntry`: an RGB source buffer is
expanded by `rgb_to_rgba` and flagged `multicolor = false`; an RGBA source
buffer is taken as-is and flagged `multicolor = true`. -/
def AtlasEntry.ofGlyph (glyph : RasterizedGlyph) : AtlasEntry :=
  match glyph.buffer with
  | .rgb buffer =>
      { buffer := rgb_to_rgba buffer
        multicolor := false
        width := glyph.width
        height := glyph.height
        top := glyph.top
        left := glyph.left
        advance := glyph.advance }
  | .rgba buffer =>
      { buffer := buffer
        multicolor := true
        width := glyph.width
        height := glyph.height
        top := glyph.top
        left := glyph.left
        advance := glyph.advance }

/-- Subtexture cached inside an atlas (`GlSubTexture` in `text.rs`).
`texture_id` is the OpenGL texture name of the owning page. -/
structure GlSubTexture where
  texture_id : Nat
  multicolor : Bool
  top : Int
  left : Int
  width : Int
  height : Int
  uv_bot : ℚ
  uv_left : ℚ
  uv_width : ℚ
  uv_height : ℚ
  advance : Int × Int
deriving DecidableEq

/-- The atlas (`Atlas` in `text.rs`): the ordered list of page texture names,
the current row height and the write cursor. `nextId` models the OpenGL
texture-name supply: `Atlas::create_texture` draws a fresh name from it. -/
structure Atlas where
  textures : List Nat
  row_height : Int
  cursor_x : Int
  cursor_y : Int
  nextId : Nat
deriving DecidableEq

/-- The `impl Default for Atlas`: one pre-created page, cursor and row height at
zero. The first page receives texture name `0`; the supply continues at `1`. -/
def Atlas.default : Atlas :=
  { textures := [0], row_height := 0, cursor_x := 0, cursor_y := 0, nextId := 1 }

/-- The row-wrap step of `Atlas::insert`: if the entry does not fit in the
current row, move the cursor to the start of the next row
(`cursor_y += mem::take(&mut row_height); cursor_x = 0`). -/
def Atlas.rowWrap (a : Atlas) (entryWidth : Int) : Atlas :=
  if ATLAS_SIZE < a.cursor_x + entryWidth then
    { a with cursor_y := a.cursor_y + a.row_height, row_height := 0, cursor_x := 0 }
  else a

/-- The page-wrap step of `Atlas::insert`: if the row's available height is
too little, push a freshly created texture and reset `row_height`,
`cursor_x` and `cursor_y` to zero. -/
def Atlas.pageWrap (a : Atlas) (entryHeight : Int) : Atlas :=
  if ATLAS_SIZE < a.cursor_y + entryHeight then
    { textures := a.textures ++ [a.nextId]
      row_height := 0
      cursor_x := 0
      cursor_y := 0
      nextId := a.nextId + 1 }
  else a

/-- Rust's `Atlas::insert`: fail while the cursor is already off the page, otherwise
row-wrap, then page-wrap, upload the buffer at the cursor of the last page
(the upload itself has no effect on the embedded state), compute UV
coordinates, bump `row_height` and `cursor_x`, and return the subtexture.
The pair's second component is the atlas after the call (`&mut self`); on
failure the state is returned unchanged. -/
def Atlas.insert (a : Atlas) (entry : AtlasEntry) : Except String GlSubTexture × Atlas :=
  if ATLAS_SIZE < a.cursor_x ∨ ATLAS_SIZE < a.cursor_y then
    (.error "atlas is full", a)
  else
    let a1 := a.rowWrap entry.width
    let a2 := a1.pageWrap entry.height
    let active_texture := a2.textures.getLastD 0
    let uv_bot : ℚ := (a2.cursor_y : ℚ) / (ATLAS_SIZE : ℚ)
    let uv_left : ℚ := (a2.cursor_x : ℚ) / (ATLAS_SIZE : ℚ)
    let uv_height : ℚ := (entry.height : ℚ) / (ATLAS_SIZE : ℚ)
    let uv_width : ℚ := (entry.width : ℚ) / (ATLAS_SIZE : ℚ)
    let a3 := { a2 with
      row_height := max a2.row_height entry.height
      cursor_x := a2.cursor_x + entry.width }
    (.ok { texture_id := active_texture
           multicolor := entry.multicolor
           top := asI16 entry.top
           left := asI16 entry.left
           width := asI16 entry.width
           height := asI16 entry.height
           uv_bot := uv_bot
           uv_left := uv_left
           uv_width := uv_width
           uv_height := uv_height
           advance := entry.advance }, a3)

/-- Run `Atlas::insert` over a list of entries, collecting each call's result
and threading the atlas state. -/
def Atlas.insertSeq (a : Atlas) : List AtlasEntry → List (Except String GlSubTexture) × Atlas
  | [] => ([], a)
  | e :: es =>
    let step := a.insert e
    let rest := step.2.insertSeq es
    (step.1 :: rest.1, rest.2)

/-- Key for caching atlas entries (`CacheKey` in `text.rs`): either a
character or one of the built-in SVGs (identified here by its index in the
`Svg` enum). -/
inductive CacheKey where
  | character (c : Char)
  | svg (s : Nat)
deriving DecidableEq

/-- Lookup in the cache, modelled as an association list (first match wins,
matching `HashMap` behaviour since keys are never duplicated). -/
def cacheLookup : List (CacheKey × GlSubTexture) → CacheKey → Option GlSubTexture
  | [], _ => none
  | (k, v) :: rest, key => if k = key then some v else cacheLookup rest key

/-- The opaque FreeType collaborator (`crossfont::Rasterizer`), as the pure
interface the module uses: `get_glyph` rasterizes one glyph (fallibly) and
`kerning` reports the kerning vector between two glyph keys (the Rust
`as i32` casts of its components are absorbed into the modelled service). -/
structure FontService where
  get_glyph : GlyphKey → Except String RasterizedGlyph
  kerning : GlyphKey → GlyphKey → Int × Int

/-- The cached OpenGL rasterizer (`GlRasterizer` in `text.rs`): subtexture
cache, atlas, and the font key and size fixed at construction. -/
structure GlRasterizer where
  cache : List (CacheKey × GlSubTexture)
  atlas : Atlas
  size : Int
  font : Nat
deriving DecidableEq

/-- Rust's `GlRasterizer::glyph_key`: the glyph key for a character under the
rasterizer's fixed font and size. -/
def GlRasterizer.glyphKey (r : GlRasterizer) (c : Char) : GlyphKey :=
  { font_key := r.font, size := r.size, character := c }

/-- Rust's `GlRasterizer::rasterize_char`: return the cached subtexture on a cache
hit; on a miss, rasterize the glyph through the font service, insert it into
the atlas and store the result in the cache. The second and third
components instrument the call: how many times the font service's
rasterization and the atlas insertion were invoked during this call. -/
def GlRasterizer.rasterize_char (fs : FontService) (r : GlRasterizer) (c : Char) :
    (Except String GlSubTexture × GlRasterizer) × Nat × Nat :=
  match cacheLookup r.cache (CacheKey.character c) with
  | some glyph => ((.ok glyph, r), 0, 0)
  | none =>
    match fs.get_glyph (r.glyphKey c) with
    | .error e => ((.error e, r), 1, 0)
    | .ok rasterized_glyph =>
      match r.atlas.insert (AtlasEntry.ofGlyph rasterized_glyph) with
      | (.error e, atlas1) => ((.error e, { r with atlas := atlas1 }), 1, 1)
      | (.ok glyph, atlas1) =>
        ((.ok glyph,
          { r with atlas := atlas1, cache := (CacheKey.character c, glyph) :: r.cache }), 1, 1)

/-- The body of the `scan` in `GlRasterizer::rasterize_string`, unrolled over
the character list: rasterize each character, add the kerning between the
previous and the current glyph key to the yielded copy's advance, update the
previous key, and stop silently at the first rasterization failure. -/
def GlRasterizer.rasterize_string_go (fs : FontService) (prev : GlyphKey) :
    List Char → GlRasterizer → List GlSubTexture × GlRasterizer
  | [], r => ([], r)
  | c :: rest, r =>
    match (r.rasterize_char fs c).1 with
    | (.error _, r1) => ([], r1)
    | (.ok glyph, r1) =>
      let key := r1.glyphKey c
      let kerning := fs.kerning prev key
      let glyph1 := { glyph with
        advance := (glyph.advance.1 + kerning.1, glyph.advance.2 + kerning.2) }
      let rest1 := rasterize_string_go fs key rest r1
      (glyph1 :: rest1.1, rest1.2)

/-- Rust's `GlRasterizer::rasterize_string`: the previous glyph key starts at the
space character's key. -/
def GlRasterizer.rasterize_string (fs : FontService) (r : GlRasterizer)
    (text : List Char) : List GlSubTexture × GlRasterizer :=
  GlRasterizer.rasterize_string_go fs (r.glyphKey ' ') text r

instance {ε α : Type} [DecidableEq ε] [DecidableEq α] : DecidableEq (Except ε α) := fun x y =>
  match x, y with
  | .error a, .error b =>
    if h : a = b then .isTrue (by rw [h]) else .isFalse (by simp [h])
  | .error _, .ok _ => .isFalse (by simp)
  | .ok _, .error _ => .isFalse (by simp)
  | .ok a, .ok b =>
    if h : a = b then .isTrue (by rw [h]) else .isFalse (by simp [h])

/-- The atlas state invariant of the specification: row height and both
cursor coordinates lie within `[0, ATLAS_SIZE]`. -/
def AtlasInv (a : Atlas) : Prop :=
  0 ≤ a.cursor_x ∧ a.cursor_x ≤ ATLAS_SIZE ∧
  0 ≤ a.cursor_y ∧ a.cursor_y ≤ ATLAS_SIZE ∧
  0 ≤ a.row_height ∧ a.row_height ≤ ATLAS_SIZE

instance (a : Atlas) : Decidable (AtlasInv a) := by
  unfold AtlasInv
  infer_instance

/-- Concrete 10×12 glyph-sized entry used by witness instantiations. -/
def smallEntry : AtlasEntry :=
  { buffer := [], width := 10, height := 12, top := 3, left := 1,
    advance := (11, 0), multicolor := false }

/-- Concrete entry wider than a page, used by witness instantiations. -/
def wideEntry : AtlasEntry :=
  { buffer := [], width := 1025, height := 1, top := 0, left := 0,
    advance := (0, 0), multicolor := false }

/-- Concrete entry taller than a page, used by witness instantiations. -/
def tallEntry : AtlasEntry :=
  { buffer := [], width := 1, height := 1025, top := 0, left := 0,
    advance := (0, 0), multicolor := false }

/-- The atlas state reached by inserting the over-wide entry once: its
`cursor_x` is `1025`, so every further insert fails. -/
def fullAtlas : Atlas := (Atlas.default.insertSeq [wideEntry]).2

/-- Concrete atlas state about to row-wrap, used by witness instantiations. -/
def rowAtlas : Atlas :=
  { textures := [0], row_height := 5, cursor_x := 1020, cursor_y := 0, nextId := 1 }

/-- Concrete atlas state about to page-wrap, used by witness instantiations. -/
def pageAtlas : Atlas :=
  { textures := [0], row_height := 8, cursor_x := 1000, cursor_y := 1020, nextId := 1 }

/-- Concrete rasterized glyph returned by the stub font services. -/
def wGlyph : RasterizedGlyph :=
  { character := 'a', width := 10, height := 12, top := 3, left := 1,
    advance := (11, 0), buffer := .rgb [] }

/-- Stub font service that rasterizes every character successfully. -/
def stubFs : FontService :=
  { get_glyph := fun key => .ok { wGlyph with character := key.character }
    kerning := fun _ _ => (0, 0) }

/-- Stub font service that fails to rasterize `x` and succeeds elsewhere. -/
def failFs : FontService :=
  { get_glyph := fun key =>
      if key.character = 'x' then .error "rasterization failed"
      else .ok { wGlyph with character := key.character }
    kerning := fun _ _ => (0, 0) }

/-- Stub font service with kerning `(2, 0)` between the glyphs of `a` and
`b` and zero kerning elsewhere. -/
def kernFs : FontService :=
  { get_glyph := fun key => .ok { wGlyph with character := key.character }
    kerning := fun k1 k2 =>
      if k1.character = 'a' ∧ k2.character = 'b' then (2, 0) else (0, 0) }

/-- A rasterizer with an empty cache and a fresh atlas. -/
def freshRasterizer : GlRasterizer :=
  { cache := [], atlas := Atlas.default, size := 20, font := 0 }

/-- Placeholder subtexture (only used as the impossible fallback of the
witness projections below). -/
def dummyTex : GlSubTexture :=
  { texture_id := 0, multicolor := false, top := 0, left := 0, width := 0,
    height := 0, uv_bot := 0, uv_left := 0, uv_width := 0, uv_height := 0,
    advance := (0, 0) }

/-- The first call of `rasterize_char` on `a` from the fresh rasterizer. -/
def wC1 : (Except String GlSubTexture × GlRasterizer) × Nat × Nat :=
  GlRasterizer.rasterize_char stubFs freshRasterizer 'a'

/-- The subtexture produced by that first call. -/
def wC1g : GlSubTexture :=
  match wC1.1.1 with
  | .ok g => g
  | .error _ => dummyTex

/-- The rasterizer state after that first call. -/
def wC1r : GlRasterizer := wC1.1.2

/-- The rasterizer state after shaping the prefix `"a"` under `kernFs`. -/
def w7mid : GlRasterizer :=
  (GlRasterizer.rasterize_string_go kernFs (freshRasterizer.glyphKey ' ') ['a']
    freshRasterizer).2

/-- The `rasterize_char` call for `b` following that prefix. -/
def w7call : Except String GlSubTexture × GlRasterizer :=
  (w7mid.rasterize_char kernFs 'b').1

/-- The raw cached subtexture for `b` in that call. -/
def w7g : GlSubTexture :=
  match w7call.1 with
  | .ok g => g
  | .error _ => dummyTex

/-- The rasterizer state after that call. -/
def w7r1 : GlRasterizer := w7call.2

/-- A sequence of two well-sized entries. -/
def okEntries : List AtlasEntry := [smallEntry, smallEntry]

/-- An over-wide entry followed by a well-sized one: the second insert hits
the atlas-full branch. -/
def badEntries : List AtlasEntry := [wideEntry, smallEntry]

/-- The successful result of inserting the over-wide entry. -/
def wOkWide : Except String GlSubTexture := (Atlas.default.insert wideEntry).1

lemma getLastD_concat {α : Type} (l : List α) (x d : α) : (l ++ [x]).getLastD d = x := by
  induction l generalizing d with
  | nil => rfl
  | cons a l ih => rw [List.cons_append, List.getLastD_cons]; exact ih a

lemma rowWrap_of_lt (a : Atlas) (w : Int) (h : ATLAS_SIZE < a.cursor_x + w) :
    a.rowWrap w =
      { a with cursor_y := a.cursor_y + a.row_height, row_height := 0, cursor_x := 0 } := by
  unfold Atlas.rowWrap
  rw [if_pos h]

lemma rowWrap_of_le (a : Atlas) (w : Int) (h : a.cursor_x + w ≤ ATLAS_SIZE) :
    a.rowWrap w = a := by
  unfold Atlas.rowWrap
  rw [if_neg (by omega)]

lemma pageWrap_of_lt (a : Atlas) (h : Int) (hlt : ATLAS_SIZE < a.cursor_y + h) :
    a.pageWrap h =
      { textures := a.textures ++ [a.nextId], row_height := 0, cursor_x := 0,
        cursor_y := 0, nextId := a.nextId + 1 } := by
  unfold Atlas.pageWrap
  rw [if_pos hlt]

lemma pageWrap_of_le (a : Atlas) (h : Int) (hle : a.cursor_y + h ≤ ATLAS_SIZE) :
    a.pageWrap h = a := by
  unfold Atlas.pageWrap
  rw [if_neg (by omega)]

lemma insert_eq_of_le (a : Atlas) (e : AtlasEntry)
    (hx : a.cursor_x ≤ ATLAS_SIZE) (hy : a.cursor_y ≤ ATLAS_SIZE) :
    a.insert e =
      (.ok { texture_id := ((a.rowWrap e.width).pageWrap e.height).textures.getLastD 0
             multicolor := e.multicolor
             top := asI16 e.top
             left := asI16 e.left
             width := asI16 e.width
             height := asI16 e.height
             uv_bot := ((((a.rowWrap e.width).pageWrap e.height).cursor_y : ℚ) / (ATLAS_SIZE : ℚ))
             uv_left := ((((a.rowWrap e.width).pageWrap e.height).cursor_x : ℚ) / (ATLAS_SIZE : ℚ))
             uv_width := ((e.width : ℚ) / (ATLAS_SIZE : ℚ))
             uv_height := ((e.height : ℚ) / (ATLAS_SIZE : ℚ))
             advance := e.advance },
       { (a.rowWrap e.width).pageWrap e.height with
         row_height := max ((a.rowWrap e.width).pageWrap e.height).row_height e.height
         cursor_x := ((a.rowWrap e.width).pageWrap e.height).cursor_x + e.width }) := by
  unfold Atlas.insert
  rw [if_neg (by omega)]

lemma rowWrap_textures (a : Atlas) (w : Int) : (a.rowWrap w).textures = a.textures := by
  unfold Atlas.rowWrap
  split <;> rfl

lemma rowWrap_nextId (a : Atlas) (w : Int) : (a.rowWrap w).nextId = a.nextId := by
  unfold Atlas.rowWrap
  split <;> rfl

/-- **C4** — AtlasFull condition: `Atlas::insert` fails with the atlas-full
error exactly when, at the start of the call, `cursor_x > ATLAS_SIZE` or
`cursor_y > ATLAS_SIZE`; in that case no new page is created and the atlas
state (pages, cursor, row height) is unchanged, so the failure is a hard
cap: every insert of any subsequent sequence fails as well. Conversely,
whenever the condition does not hold the insert succeeds. -/
theorem insert_atlas_full (a : Atlas) (e : AtlasEntry)
    (h : ATLAS_SIZE < a.cursor_x ∨ ATLAS_SIZE < a.cursor_y) :
    (a.insert e).1 = .error "atlas is full" ∧
    (a.insert e).2 = a ∧
    (∀ es : List AtlasEntry, (a.insertSeq es).2 = a ∧
      ∀ r ∈ (a.insertSeq es).1, r = .error "atlas is full") ∧
    ∀ b : Atlas, ∀ e1 : AtlasEntry, b.cursor_x ≤ ATLAS_SIZE → b.cursor_y ≤ ATLAS_SIZE →
      ∃ g, (b.insert e1).1 = .ok g := by
  have hfail : ∀ e1 : AtlasEntry, a.insert e1 = (.error "atlas is full", a) := by
    intro e1
    unfold Atlas.insert
    rw [if_pos h]
  refine ⟨by rw [hfail e], by rw [hfail e], ?_, ?_⟩
  · intro es
    induction es with
    | nil => exact ⟨rfl, by simp [Atlas.insertSeq]⟩
    | cons e1 es ih =>
      simp only [Atlas.insertSeq, hfail e1]
      refine ⟨ih.1, ?_⟩
      intro r hr
      rcases List.mem_cons.mp hr with h1 | h1
      · exact h1
      · exact ih.2 r h1
  · intro b e1 hbx hby
    exact ⟨_, by rw [insert_eq_of_le b e1 hbx hby]⟩

/-- **C3** — Row wrap: when the entry's width does not fit into the current
row (`cursor_x + width > ATLAS_SIZE`) and no page wrap follows, the row-wrap
step moves the cursor to a fresh row (`cursor_y += row_height`,
`row_height = 0`, `cursor_x = 0`); the insert succeeds, the final `cursor_y`
has advanced by exactly the previous `row_height`, no page was created, and
the inserted entry's `uv_left` is `0`. -/
theorem insert_row_wrap (a : Atlas) (e : AtlasEntry)
    (hx : a.cursor_x ≤ ATLAS_SIZE) (hy : a.cursor_y ≤ ATLAS_SIZE)
    (hwrap : ATLAS_SIZE < a.cursor_x + e.width)
    (hfit : a.cursor_y + a.row_height + e.height ≤ ATLAS_SIZE) :
    (a.rowWrap e.width).cursor_y = a.cursor_y + a.row_height ∧
    (a.rowWrap e.width).row_height = 0 ∧
    (a.rowWrap e.width).cursor_x = 0 ∧
    ∃ g : GlSubTexture,
      (a.insert e).1 = .ok g ∧
      g.uv_left = 0 ∧
      ((a.insert e).2).cursor_y = a.cursor_y + a.row_height ∧
      ((a.insert e).2).textures = a.textures := by
  have hrow := rowWrap_of_lt a e.width hwrap
  have hpage : (a.rowWrap e.width).pageWrap e.height = a.rowWrap e.width := by
    refine pageWrap_of_le _ _ ?_
    rw [hrow]
    show a.cursor_y + a.row_height + e.height ≤ ATLAS_SIZE
    omega
  rw [insert_eq_of_le a e hx hy, hpage, hrow]
  refine ⟨rfl, rfl, rfl, _, rfl, ?_, rfl, rfl⟩
  show ((0 : Int) : ℚ) / (ATLAS_SIZE : ℚ) = 0
  simp

lemma insert_texture_last (a : Atlas) (e : AtlasEntry) (g : GlSubTexture)
    (h : (a.insert e).1 = .ok g) :
    g.texture_id = ((a.insert e).2).textures.getLastD 0 := by
  by_cases hc : a.cursor_x ≤ ATLAS_SIZE ∧ a.cursor_y ≤ ATLAS_SIZE
  · rw [insert_eq_of_le a e hc.1 hc.2] at h ⊢
    simp only [Except.ok.injEq] at h
    rw [← h]
  · have hlt : ATLAS_SIZE < a.cursor_x ∨ ATLAS_SIZE < a.cursor_y := by omega
    unfold Atlas.insert at h
    rw [if_pos hlt] at h
    simp at h

lemma atlasInv_insert (a : Atlas) (e : AtlasEntry) (hInv : AtlasInv a)
    (hw0 : 0 ≤ e.width) (hwS : e.width ≤ ATLAS_SIZE)
    (hh0 : 0 ≤ e.height) (hhS : e.height ≤ ATLAS_SIZE) :
    AtlasInv (a.insert e).2 := by
  obtain ⟨h1, h2, h3, h4, h5, h6⟩ := hInv
  rw [insert_eq_of_le a e h2 h4]
  by_cases hrow : ATLAS_SIZE < a.cursor_x + e.width
  · rw [rowWrap_of_lt a e.width hrow]
    by_cases hpg : ATLAS_SIZE < a.cursor_y + a.row_height + e.height
    · rw [pageWrap_of_lt _ _ hpg]
      unfold AtlasInv
      simp
      omega
    · rw [pageWrap_of_le _ _ (show a.cursor_y + a.row_height + e.height ≤ ATLAS_SIZE by omega)]
      unfold AtlasInv
      simp
      omega
  · rw [rowWrap_of_le a e.width (by omega)]
    by_cases hpg : ATLAS_SIZE < a.cursor_y + e.height
    · rw [pageWrap_of_lt _ _ hpg]
      unfold AtlasInv
      simp
      omega
    · rw [pageWrap_of_le _ _ (by omega)]
      unfold AtlasInv
      simp
      omega

lemma atlasInv_insertSeq (a : Atlas) (es : List AtlasEntry) (hInv : AtlasInv a)
    (hes : ∀ e ∈ es, 0 ≤ e.width ∧ e.width ≤ ATLAS_SIZE ∧
      0 ≤ e.height ∧ e.height ≤ ATLAS_SIZE) :
    AtlasInv (a.insertSeq es).2 ∧ ∀ r ∈ (a.insertSeq es).1, ∃ g, r = .ok g := by
  induction es generalizing a with
  | nil => exact ⟨hInv, by simp [Atlas.insertSeq]⟩
  | cons e es ih =>
    obtain ⟨he1, he2, he3, he4⟩ := hes e (List.mem_cons_self e es)
    have hInv1 : AtlasInv (a.insert e).2 := atlasInv_insert a e hInv he1 he2 he3 he4
    have hok : ∃ g, (a.insert e).1 = .ok g :=
      ⟨_, by rw [insert_eq_of_le a e hInv.2.1 hInv.2.2.2.1]⟩
    have hrec := ih (a.insert e).2 hInv1 (fun e1 hm => hes e1 (List.mem_cons_of_mem e hm))
    simp only [Atlas.insertSeq]
    refine ⟨hrec.1, ?_⟩
    intro r hr
    rcases List.mem_cons.mp hr with h | h
    · rw [h]
      exact hok
    · exact hrec.2 r h

/-- **C2** — Page wrap and check order: the page-overflow test is applied to
the cursor that results from the row-wrap step; whenever
`cursor_y + height > ATLAS_SIZE` still holds after any row wrap, a freshly
created page is appended to the page list and `row_height`, `cursor_x`,
`cursor_y` are all reset to `0`, so the entry lands at `(0, 0)` of the new
page (`uv_left = uv_bot = 0`); the returned placement references the new
page's id, which differs from the id of every page that existed before the
call (in particular from every first-page placement's id). -/
theorem insert_page_wrap (a : Atlas) (e : AtlasEntry)
    (hx : a.cursor_x ≤ ATLAS_SIZE) (hy : a.cursor_y ≤ ATLAS_SIZE)
    (hpage : ATLAS_SIZE < (a.rowWrap e.width).cursor_y + e.height)
    (hfresh : ∀ t ∈ a.textures, t < a.nextId) :
    (a.rowWrap e.width).pageWrap e.height =
      { textures := a.textures ++ [a.nextId], row_height := 0, cursor_x := 0,
        cursor_y := 0, nextId := a.nextId + 1 } ∧
    ∃ g : GlSubTexture,
      (a.insert e).1 = .ok g ∧
      ((a.insert e).2).textures = a.textures ++ [a.nextId] ∧
      ((a.insert e).2).cursor_y = 0 ∧
      ((a.insert e).2).cursor_x = e.width ∧
      g.texture_id = a.nextId ∧
      g.uv_left = 0 ∧
      g.uv_bot = 0 ∧
      ∀ t ∈ a.textures, g.texture_id ≠ t := by
  have hA : (a.rowWrap e.width).pageWrap e.height =
      { textures := a.textures ++ [a.nextId], row_height := 0, cursor_x := 0,
        cursor_y := 0, nextId := a.nextId + 1 } := by
    rw [pageWrap_of_lt _ _ hpage, rowWrap_textures, rowWrap_nextId]
  refine ⟨hA, ?_⟩
  rw [insert_eq_of_le a e hx hy, hA]
  refine ⟨_, rfl, rfl, rfl, ?_, ?_, ?_, ?_, ?_⟩
  · show (0 : Int) + e.width = e.width
    omega
  · exact getLastD_concat a.textures a.nextId 0
  · show ((0 : Int) : ℚ) / (ATLAS_SIZE : ℚ) = 0
    simp
  · show ((0 : Int) : ℚ) / (ATLAS_SIZE : ℚ) = 0
    simp
  · intro t ht
    show (a.textures ++ [a.nextId]).getLastD 0 ≠ t
    rw [getLastD_concat]
    exact (hfresh t ht).ne'

/-- **C4 witness** — from the reachable state with `cursor_x = 1025`,
inserting the 10×12 entry fails, leaves the state unchanged, and so does
every subsequent sequence of inserts. -/
theorem insert_atlas_full_witness :
    (fullAtlas.insert smallEntry).1 = .error "atlas is full" ∧
    (fullAtlas.insert smallEntry).2 = fullAtlas ∧
    (∀ es : List AtlasEntry, (fullAtlas.insertSeq es).2 = fullAtlas ∧
      ∀ r ∈ (fullAtlas.insertSeq es).1, r = .error "atlas is full") ∧
    ∀ b : Atlas, ∀ e1 : AtlasEntry, b.cursor_x ≤ ATLAS_SIZE → b.cursor_y ≤ ATLAS_SIZE →
      ∃ g, (b.insert e1).1 = .ok g :=
  insert_atlas_full fullAtlas smallEntry (by decide)

/-- **C3 witness** — from the state with `cursor_x = 1020`, `row_height = 5`,
inserting the 10-wide entry wraps the row: `cursor_y` advances by `5` and
the placement's `uv_left` is `0`. -/
theorem insert_row_wrap_witness :
    (rowAtlas.rowWrap smallEntry.width).cursor_y = rowAtlas.cursor_y + rowAtlas.row_height ∧
    (rowAtlas.rowWrap smallEntry.width).row_height = 0 ∧
    (rowAtlas.rowWrap smallEntry.width).cursor_x = 0 ∧
    ∃ g : GlSubTexture,
      (rowAtlas.insert smallEntry).1 = .ok g ∧
      g.uv_left = 0 ∧
      ((rowAtlas.insert smallEntry).2).cursor_y = rowAtlas.cursor_y + rowAtlas.row_height ∧
      ((rowAtlas.insert smallEntry).2).textures = rowAtlas.textures :=
  insert_row_wrap rowAtlas smallEntry (by decide) (by decide) (by decide) (by decide)

/-- **C2 witness** — from the state with `cursor_y = 1020`, inserting the
10×12 entry allocates page `1`: the placement lands at `(0, 0)` of the new
page and references an id different from the first page's id `0`. -/
theorem insert_page_wrap_witness :
    (pageAtlas.rowWrap smallEntry.width).pageWrap smallEntry.height =
      { textures := pageAtlas.textures ++ [pageAtlas.nextId], row_height := 0,
        cursor_x := 0, cursor_y := 0, nextId := pageAtlas.nextId + 1 } ∧
    ∃ g : GlSubTexture,
      (pageAtlas.insert smallEntry).1 = .ok g ∧
      ((pageAtlas.insert smallEntry).2).textures = pageAtlas.textures ++ [pageAtlas.nextId] ∧
      ((pageAtlas.insert smallEntry).2).cursor_y = 0 ∧
      ((pageAtlas.insert smallEntry).2).cursor_x = smallEntry.width ∧
      g.texture_id = pageAtlas.nextId ∧
      g.uv_left = 0 ∧
      g.uv_bot = 0 ∧
      ∀ t ∈ pageAtlas.textures, g.texture_id ≠ t :=
  insert_page_wrap pageAtlas smallEntry (by decide) (by decide) (by decide) (by decide)

/-- **C5 counterexample** — with arbitrary positive entry dimensions the
claimed invariant fails: inserting a single positive 1025×1 entry from the
initial state leaves `cursor_x = 1025 > ATLAS_SIZE`, and a single positive
1×1025 entry leaves `row_height = 1025 > ATLAS_SIZE`. -/
theorem atlas_invariant_counterexample :
    (0 < wideEntry.width ∧ 0 < wideEntry.height ∧
      ATLAS_SIZE < ((Atlas.default.insertSeq [wideEntry]).2).cursor_x) ∧
    (0 < tallEntry.width ∧ 0 < tallEntry.height ∧
      ATLAS_SIZE < ((Atlas.default.insertSeq [tallEntry]).2).row_height) := by
  refine ⟨⟨by decide, by decide, by decide⟩, ⟨by decide, by decide, by decide⟩⟩

/-- **C5 (amended)** — Atlas state invariant: for every state reachable from
the initial atlas by inserts whose entries all have positive dimensions
bounded by `ATLAS_SIZE` (rather than arbitrary positive dimensions, which
the counterexample refutes), `cursor_x`, `cursor_y` and `row_height` are
each within `[0, ATLAS_SIZE]`, and every successful insert writes to (and
returns the id of) the last element of the page sequence. -/
theorem atlas_invariant (es : List AtlasEntry)
    (hes : ∀ e ∈ es, 0 < e.width ∧ e.width ≤ ATLAS_SIZE ∧
      0 < e.height ∧ e.height ≤ ATLAS_SIZE) :
    AtlasInv ((Atlas.default.insertSeq es).2) ∧
    ∀ e : AtlasEntry, ∀ g : GlSubTexture,
      (((Atlas.default.insertSeq es).2).insert e).1 = .ok g →
      g.texture_id = ((((Atlas.default.insertSeq es).2).insert e).2).textures.getLastD 0 := by
  have h := atlasInv_insertSeq Atlas.default es (by decide)
    (fun e hm => ⟨(hes e hm).1.le, (hes e hm).2.1, (hes e hm).2.2.1.le, (hes e hm).2.2.2⟩)
  exact ⟨h.1, fun e g hok => insert_texture_last _ e g hok⟩

/-- **C5 witness** — the invariant holds in the state reached by inserting
two 10×12 entries. -/
theorem atlas_invariant_witness :
    AtlasInv ((Atlas.default.insertSeq okEntries).2) ∧
    ∀ e : AtlasEntry, ∀ g : GlSubTexture,
      (((Atlas.default.insertSeq okEntries).2).insert e).1 = .ok g →
      g.texture_id = ((((Atlas.default.insertSeq okEntries).2).insert e).2).textures.getLastD 0 :=
  atlas_invariant okEntries (by decide)

/-- **C10** — AtlasFull is unreachable for well-sized entries: starting from
the initial atlas, if every inserted entry has positive dimensions bounded
by `ATLAS_SIZE`, then no insert of the sequence fails (a new page is
allocated whenever the current page runs out); consequently, for positive
entries the atlas-full error can only ever be reached after inserting an
entry wider or taller than `ATLAS_SIZE`. -/
theorem atlas_full_unreachable (es : List AtlasEntry) :
    ((∀ e ∈ es, 0 < e.width ∧ e.width ≤ ATLAS_SIZE ∧
        0 < e.height ∧ e.height ≤ ATLAS_SIZE) →
      ∀ r ∈ (Atlas.default.insertSeq es).1, ∃ g, r = .ok g) ∧
    ((∀ e ∈ es, 0 < e.width ∧ 0 < e.height) →
      (∃ r ∈ (Atlas.default.insertSeq es).1, ∀ g, r ≠ .ok g) →
      ∃ e ∈ es, ATLAS_SIZE < e.width ∨ ATLAS_SIZE < e.height) := by
  have main : (∀ e ∈ es, 0 < e.width ∧ e.width ≤ ATLAS_SIZE ∧
      0 < e.height ∧ e.height ≤ ATLAS_SIZE) →
      ∀ r ∈ (Atlas.default.insertSeq es).1, ∃ g, r = .ok g := fun hes =>
    (atlasInv_insertSeq Atlas.default es (by decide)
      (fun e hm => ⟨(hes e hm).1.le, (hes e hm).2.1, (hes e hm).2.2.1.le,
        (hes e hm).2.2.2⟩)).2
  refine ⟨main, ?_⟩
  intro hpos hex
  obtain ⟨r, hr, hne⟩ := hex
  by_contra hcon
  push_neg at hcon
  obtain ⟨g, hg⟩ := main
    (fun e hm => ⟨(hpos e hm).1, (hcon e hm).1, (hpos e hm).2, (hcon e hm).2⟩) r hr
  exact hne g hg

/-- **C10 witness** — both inserts of two 10×12 entries succeed; and the
failing two-entry sequence indeed contains an over-wide entry. -/
theorem atlas_full_unreachable_witness :
    (∀ r ∈ (Atlas.default.insertSeq okEntries).1, ∃ g, r = .ok g) ∧
    ∃ e ∈ badEntries, ATLAS_SIZE < e.width ∨ ATLAS_SIZE < e.height :=
  ⟨(atlas_full_unreachable okEntries).1 (by decide),
   (atlas_full_unreachable badEntries).2 (by decide)
     ⟨.error "atlas is full",
      by
        have h1 : (Atlas.default.insertSeq badEntries).1 =
            [wOkWide, .error "atlas is full"] := by with_unfolding_all rfl
        rw [h1]
        exact List.Mem.tail _ (List.Mem.head _),
      fun g h => Except.noConfusion h⟩⟩

/-- **C8** — RGB→RGBA normalization: for every byte buffer of length `3 * n`,
`rgb_to_rgba` returns a buffer of length exactly `4 * n` in which, for every
pixel index `i < n`, output bytes `4i`, `4i+1`, `4i+2` equal input bytes
`3i`, `3i+1`, `3i+2` in order and output byte `4i+3` equals `255`. -/
theorem rgb_to_rgba_normalizes (rgb : List Nat) (n : Nat) (h : rgb.length = 3 * n) :
    (rgb_to_rgba rgb).length = 4 * n ∧
    ∀ i < n,
      (rgb_to_rgba rgb)[4 * i]? = rgb[3 * i]? ∧
      (rgb_to_rgba rgb)[4 * i + 1]? = rgb[3 * i + 1]? ∧
      (rgb_to_rgba rgb)[4 * i + 2]? = rgb[3 * i + 2]? ∧
      (rgb_to_rgba rgb)[4 * i + 3]? = some 255 := by
  induction n generalizing rgb with
  | zero =>
    have hnil : rgb = [] := List.eq_nil_of_length_eq_zero (by omega)
    subst hnil
    exact ⟨rfl, fun i hi => absurd hi (Nat.not_lt_zero i)⟩
  | succ n ih =>
    rcases rgb with _ | ⟨r, _ | ⟨g, _ | ⟨b, rest⟩⟩⟩
    · simp only [List.length_nil] at h
      omega
    · simp only [List.length_cons, List.length_nil] at h
      omega
    · simp only [List.length_cons, List.length_nil] at h
      omega
    · have hlen : rest.length = 3 * n := by
        simp only [List.length_cons] at h
        omega
      obtain ⟨ihlen, ihidx⟩ := ih rest hlen
      have hrw : rgb_to_rgba (r :: g :: b :: rest) = r :: g :: b :: 255 :: rgb_to_rgba rest := rfl
      refine ⟨by rw [hrw]; simp only [List.length_cons, ihlen]; omega, ?_⟩
      intro i hi
      match i with
      | 0 => refine ⟨?_, ?_, ?_, ?_⟩ <;> simp [hrw]
      | j + 1 =>
        have h4 : 4 * (j + 1) = 4 * j + 1 + 1 + 1 + 1 := by ring
        have h3 : 3 * (j + 1) = 3 * j + 1 + 1 + 1 := by ring
        rw [hrw, h4, h3]
        simp only [List.getElem?_cons_succ]
        obtain ⟨e1, e2, e3, e4⟩ := ihidx j (by omega)
        exact ⟨e1, e2, e3, e4⟩

/-- **C8 witness** — the 2-pixel buffer `[1, 2, 3, 4, 5, 6]` normalizes to an
8-byte buffer preserving RGB order with alpha 255. -/
theorem rgb_to_rgba_normalizes_witness :
    (rgb_to_rgba [1, 2, 3, 4, 5, 6]).length = 4 * 2 ∧
    ∀ i < 2,
      (rgb_to_rgba [1, 2, 3, 4, 5, 6])[4 * i]? = [1, 2, 3, 4, 5, 6][3 * i]? ∧
      (rgb_to_rgba [1, 2, 3, 4, 5, 6])[4 * i + 1]? = [1, 2, 3, 4, 5, 6][3 * i + 1]? ∧
      (rgb_to_rgba [1, 2, 3, 4, 5, 6])[4 * i + 2]? = [1, 2, 3, 4, 5, 6][3 * i + 2]? ∧
      (rgb_to_rgba [1, 2, 3, 4, 5, 6])[4 * i + 3]? = some 255 :=
  rgb_to_rgba_normalizes [1, 2, 3, 4, 5, 6] 2 (by decide)

/-- **C9** — Multicolor flag of the character adapter: the atlas entry built
from a rasterized glyph has `multicolor = true` exactly when the source
bitmap was already 4-channel color (the emoji case), and `multicolor = false`
exactly when the source was a 3-channel buffer expanded by `rgb_to_rgba`. -/
theorem atlasEntry_multicolor_iff (glyph : RasterizedGlyph) :
    ((AtlasEntry.ofGlyph glyph).multicolor = true ↔
      ∃ buffer, glyph.buffer = BitmapBuffer.rgba buffer) ∧
    ((AtlasEntry.ofGlyph glyph).multicolor = false ↔
      ∃ buffer, glyph.buffer = BitmapBuffer.rgb buffer) := by
  rcases hbuf : glyph.buffer with b | b
  · constructor <;> simp [AtlasEntry.ofGlyph, hbuf]
  · constructor <;> simp [AtlasEntry.ofGlyph, hbuf]

lemma rasterize_char_fields (fs : FontService) (r : GlRasterizer) (c : Char) :
    ((GlRasterizer.rasterize_char fs r c).1.2).font = r.font ∧
    ((GlRasterizer.rasterize_char fs r c).1.2).size = r.size := by
  unfold GlRasterizer.rasterize_char
  split
  · exact ⟨rfl, rfl⟩
  · split
    · exact ⟨rfl, rfl⟩
    · split
      · exact ⟨rfl, rfl⟩
      · exact ⟨rfl, rfl⟩

lemma rasterize_char_caches (fs : FontService) (r : GlRasterizer) (c : Char)
    (g : GlSubTexture) (r1 : GlRasterizer)
    (h : (GlRasterizer.rasterize_char fs r c).1 = (.ok g, r1)) :
    cacheLookup r1.cache (CacheKey.character c) = some g := by
  rcases hc : cacheLookup r.cache (CacheKey.character c) with _ | glyph
  · rcases hg : fs.get_glyph (r.glyphKey c) with e | rg
    · simp [GlRasterizer.rasterize_char, hc, hg] at h
    · rcases hi : r.atlas.insert (AtlasEntry.ofGlyph rg) with ⟨res, atlas1⟩
      rcases res with e | glyph
      · simp [GlRasterizer.rasterize_char, hc, hg, hi] at h
      · simp only [GlRasterizer.rasterize_char, hc, hg, hi, Prod.mk.injEq,
          Except.ok.injEq] at h
        rw [← h.2, ← h.1]
        simp [cacheLookup]
  · simp only [GlRasterizer.rasterize_char, hc, Prod.mk.injEq, Except.ok.injEq] at h
    rw [← h.2, ← h.1]
    exact hc

/-- **C1** — Cache idempotence: if `c` is not yet cached and the first
`rasterize_char c` succeeds with placement `g` and state `r1`, then that
first call invoked the font-service rasterization and the atlas insertion
exactly once each, and the second call returns the bit-identical placement
`g` with the state unchanged and zero further rasterize or insert
invocations — so across both calls each collaborator ran exactly once. -/
theorem rasterize_char_idempotent (fs : FontService) (r : GlRasterizer) (c : Char)
    (g : GlSubTexture) (r1 : GlRasterizer)
    (hmiss : cacheLookup r.cache (CacheKey.character c) = none)
    (hok : (GlRasterizer.rasterize_char fs r c).1 = (.ok g, r1)) :
    (GlRasterizer.rasterize_char fs r c).2 = (1, 1) ∧
    GlRasterizer.rasterize_char fs r1 c = ((.ok g, r1), 0, 0) := by
  have hcache := rasterize_char_caches fs r c g r1 hok
  rcases hg : fs.get_glyph (r.glyphKey c) with e | rg
  · simp [GlRasterizer.rasterize_char, hmiss, hg] at hok
  · rcases hi : r.atlas.insert (AtlasEntry.ofGlyph rg) with ⟨res, atlas1⟩
    rcases res with e | glyph
    · simp [GlRasterizer.rasterize_char, hmiss, hg, hi] at hok
    · refine ⟨?_, ?_⟩
      · simp [GlRasterizer.rasterize_char, hmiss, hg, hi]
      · simp only [GlRasterizer.rasterize_char, hcache]

/-- **C1 witness** — rasterizing `a` twice from the fresh rasterizer: the
first call performs one rasterize and one insert, the second returns the
identical placement and performs none. -/
theorem rasterize_char_idempotent_witness :
    (GlRasterizer.rasterize_char stubFs freshRasterizer 'a').2 = (1, 1) ∧
    GlRasterizer.rasterize_char stubFs wC1r 'a' = ((.ok wC1g, wC1r), 0, 0) :=
  rasterize_char_idempotent stubFs freshRasterizer 'a' wC1g wC1r (by decide)
    (by with_unfolding_all rfl)

/-- **C6** — Truncation on failure: if, after successfully shaping a prefix
`pre`, rasterization of the next character `c` fails (in the rasterizer
state reached at that point), then `rasterize_string` of the whole text
yields exactly the placements of `pre` — nothing for `c` or for anything
after it — and no error value appears in the yielded sequence. -/
theorem rasterize_string_truncation (fs : FontService) (k : GlyphKey) (r : GlRasterizer)
    (pre : List Char) (c : Char) (rest : List Char)
    (hpre : ((GlRasterizer.rasterize_string_go fs k pre r).1).length = pre.length)
    (hfail : ∃ msg,
      ((((GlRasterizer.rasterize_string_go fs k pre r).2).rasterize_char fs c).1).1 =
        .error msg) :
    (GlRasterizer.rasterize_string_go fs k (pre ++ c :: rest) r).1 =
      (GlRasterizer.rasterize_string_go fs k pre r).1 ∧
    ((GlRasterizer.rasterize_string_go fs k (pre ++ c :: rest) r).1).length = pre.length := by
  suffices h : (GlRasterizer.rasterize_string_go fs k (pre ++ c :: rest) r).1 =
      (GlRasterizer.rasterize_string_go fs k pre r).1 by
    refine ⟨h, ?_⟩
    rw [h]
    exact hpre
  induction pre generalizing k r with
  | nil =>
    obtain ⟨msg, hmsg⟩ := hfail
    simp only [GlRasterizer.rasterize_string_go] at hmsg
    rcases hcall : (r.rasterize_char fs c).1 with ⟨res, r1⟩
    rw [hcall] at hmsg
    simp only at hmsg
    subst hmsg
    simp only [List.nil_append, GlRasterizer.rasterize_string_go, hcall]
  | cons p ps ih =>
    rcases hcall : (r.rasterize_char fs p).1 with ⟨res, r1⟩
    rcases res with e | g0
    · simp only [GlRasterizer.rasterize_string_go, hcall, List.length_nil,
        List.length_cons] at hpre
      omega
    · simp only [GlRasterizer.rasterize_string_go, hcall, List.length_cons] at hpre hfail
      simp only [List.cons_append, GlRasterizer.rasterize_string_go, hcall, List.append_eq]
      rw [ih (r1.glyphKey p) r1 (by omega) hfail]

/-- **C6 witness** — with a font service failing on `x`, shaping the
5-character text `abxde` yields exactly the 2 placements of `ab`. -/
theorem rasterize_string_truncation_witness :
    (GlRasterizer.rasterize_string_go failFs (freshRasterizer.glyphKey ' ')
        (['a', 'b'] ++ 'x' :: ['d', 'e']) freshRasterizer).1 =
      (GlRasterizer.rasterize_string_go failFs (freshRasterizer.glyphKey ' ')
        ['a', 'b'] freshRasterizer).1 ∧
    ((GlRasterizer.rasterize_string_go failFs (freshRasterizer.glyphKey ' ')
        (['a', 'b'] ++ 'x' :: ['d', 'e']) freshRasterizer).1).length = ['a', 'b'].length :=
  rasterize_string_truncation failFs (freshRasterizer.glyphKey ' ') freshRasterizer
    ['a', 'b'] 'x' ['d', 'e'] (by with_unfolding_all rfl)
    ⟨"rasterization failed", by with_unfolding_all rfl⟩

lemma rasterize_char_glyphKey (fs : FontService) (r r1 : GlRasterizer) (c : Char)
    (res : Except String GlSubTexture)
    (h : (GlRasterizer.rasterize_char fs r c).1 = (res, r1)) :
    r1.glyphKey = r.glyphKey := by
  have hf := rasterize_char_fields fs r c
  rw [h] at hf
  have h1 : r1.font = r.font := hf.1
  have h2 : r1.size = r.size := hf.2
  funext d
  simp only [GlRasterizer.glyphKey, h1, h2]

/-- **C7** — Kerning application: `rasterize_string` keeps a previous glyph
key initialized to the space character's key; if the prefix `pre` shapes
successfully and the next character `c` rasterizes to the cached placement
`g`, then the placement yielded at position `pre.length` is `g` with the
font service's kerning offset between the previous character's key (the last
of `pre`, or the initial key for an empty prefix) and `c`'s key added to its
advance, while the placement stored in the cache for `c` stays the raw `g`. -/
theorem rasterize_string_kerning (fs : FontService) (k : GlyphKey) (r : GlRasterizer)
    (pre : List Char) (c : Char) (rest : List Char)
    (g : GlSubTexture) (r1 : GlRasterizer)
    (hpre : ((GlRasterizer.rasterize_string_go fs k pre r).1).length = pre.length)
    (hok : (((GlRasterizer.rasterize_string_go fs k pre r).2).rasterize_char fs c).1 =
      (.ok g, r1)) :
    ((GlRasterizer.rasterize_string_go fs k (pre ++ c :: rest) r).1)[pre.length]? =
      some { g with advance :=
        (g.advance.1 + (fs.kerning ((pre.map r.glyphKey).getLastD k) (r.glyphKey c)).1,
         g.advance.2 + (fs.kerning ((pre.map r.glyphKey).getLastD k) (r.glyphKey c)).2) } ∧
    cacheLookup r1.cache (CacheKey.character c) = some g := by
  refine ⟨?_, rasterize_char_caches fs _ c g r1 hok⟩
  induction pre generalizing k r with
  | nil =>
    simp only [GlRasterizer.rasterize_string_go] at hok
    have hkey : r1.glyphKey = r.glyphKey := rasterize_char_glyphKey fs r r1 c _ hok
    simp only [List.nil_append, GlRasterizer.rasterize_string_go, hok, hkey, List.map_nil,
      List.getLastD_nil, List.length_nil, List.getElem?_cons_zero]
  | cons p ps ih =>
    rcases hcall : (r.rasterize_char fs p).1 with ⟨res, r0⟩
    rcases res with e | g0
    · simp only [GlRasterizer.rasterize_string_go, hcall, List.length_nil,
        List.length_cons] at hpre
      omega
    · have hkey0 : r0.glyphKey = r.glyphKey := rasterize_char_glyphKey fs r r0 p _ hcall
      simp only [GlRasterizer.rasterize_string_go, hcall, List.length_cons] at hpre hok
      simp only [List.cons_append, GlRasterizer.rasterize_string_go, hcall, List.append_eq,
        List.length_cons, List.getElem?_cons_succ]
      rw [ih (r0.glyphKey p) r0 (by omega) hok, hkey0, List.map_cons, List.getLastD_cons]

/-- **C7 witness** — with stub kerning `(2, 0)` between `a` and `b`, shaping
`ab` yields the `b` placement whose advance is its raw advance plus `(2, 0)`,
while the cache keeps the raw placement. -/
theorem rasterize_string_kerning_witness :
    ((GlRasterizer.rasterize_string_go kernFs (freshRasterizer.glyphKey ' ')
        (['a'] ++ 'b' :: []) freshRasterizer).1)[List.length ['a']]? =
      some { w7g with advance :=
        (w7g.advance.1 +
          (kernFs.kerning ((['a'].map freshRasterizer.glyphKey).getLastD
            (freshRasterizer.glyphKey ' ')) (freshRasterizer.glyphKey 'b')).1,
         w7g.advance.2 +
          (kernFs.kerning ((['a'].map freshRasterizer.glyphKey).getLastD
            (freshRasterizer.glyphKey ' ')) (freshRasterizer.glyphKey 'b')).2) } ∧
    cacheLookup w7r1.cache (CacheKey.character 'b') = some w7g :=
  rasterize_string_kerning kernFs (freshRasterizer.glyphKey ' ') freshRasterizer
    ['a'] 'b' [] w7g w7r1 (by with_unfolding_all rfl) (by with_unfolding_all rfl)

end Epitaph
